import Mathlib

/-!
Shallow embedding of the multi-input timestamp reconciliation logic of
`fftools_ffmpeg_opt.c`: the Start-Time Corrector (`correct_input_start_times`)
and the Cross-Input Synchronizer (`apply_sync_offsets`).

Timestamps are modelled as mathematical integers (`Int`); the C sentinel
`AV_NOPTS_VALUE` ("unknown") is modelled as `Option.none`, and the sentinel
`INT64_MAX` used as the initial minimum accumulator is the explicit constant
below.  The registry of input files (the C global array `input_files` of
length `nb_input_files`) is a `List InputFile`.
-/

/-- `AVRational`: a rational time base, numerator / denominator. -/
structure AVRational where
  num : Int
  den : Int
  deriving DecidableEq, Repr

/-- The stream discard state; the code only ever tests for `AVDISCARD_ALL`. -/
inductive AVDiscard where
  | keepAll
  | discardDefault
  | all
  deriving DecidableEq, Repr

/-- The fields of an `AVStream` read by `correct_input_start_times`:
per-stream start time (`AV_NOPTS_VALUE` ↦ `none`), its time base, and the
discard state. -/
structure AVStream where
  start_time : Option Int
  time_base : AVRational
  discard : AVDiscard
  deriving DecidableEq, Repr

/-- One entry of the input registry: the fields of `InputFile` (and of its
embedded `AVFormatContext` / `AVInputFormat`) that the two passes read or
write.

* `ctx_start_time` — `is->start_time`, the container-reported start time.
* `ts_discont` — whether `is->iformat->flags` has `AVFMT_TS_DISCONT` set.
* `streams` — `is->streams`.
* `start_time_realtime` — `is->start_time_realtime` (wall clock).
* `start_time` — `ifile->start_time`, the user-requested seek start.
* `start_time_effective` — `ifile->start_time_effective` (mutated).
* `ts_offset` — `ifile->ts_offset`, the accumulated demux-time offset (mutated).
* `input_ts_offset` — `ifile->input_ts_offset`, the user-supplied base offset.
* `input_sync_ref` — `ifile->input_sync_ref`, `-1` for "no reference". -/
structure InputFile where
  ctx_start_time : Option Int
  ts_discont : Bool
  streams : List AVStream
  start_time_realtime : Option Int
  start_time : Option Int
  start_time_effective : Option Int
  ts_offset : Int
  input_ts_offset : Int
  input_sync_ref : Int
  deriving DecidableEq, Repr

/-- The two global configuration flags read by both passes. -/
structure Config where
  copy_ts : Bool
  start_at_zero : Bool
  deriving DecidableEq, Repr

/-- `INT64_MAX`, the initial value of the `new_start_time` accumulator. -/
def INT64_MAX : Int := 9223372036854775807

/-- `AV_TIME_BASE_Q = (AVRational){1, AV_TIME_BASE}`: the global microsecond
time unit. -/
def AV_TIME_BASE_Q : AVRational := ⟨1, 1000000⟩

/-- `av_rescale_rnd(a, b, c, AV_ROUND_NEAR_INF)`: compute `a * b / c` rounded
to the nearest integer, halfway cases away from zero (the default rounding of
`av_rescale`).  Exact integer arithmetic; `b ≥ 0` and `c > 0` hold for the
time bases in play. -/
def av_rescale_rnd_near (a b c : Int) : Int :=
  if 0 ≤ a then (a * b + c / 2) / c
  else -(((-a) * b + c / 2) / c)

/-- `av_rescale_q(a, bq, cq) = av_rescale_rnd(a, bq.num * cq.den,
cq.num * bq.den, AV_ROUND_NEAR_INF)`. -/
def av_rescale_q (a : Int) (bq cq : AVRational) : Int :=
  av_rescale_rnd_near a (bq.num * cq.den) (cq.num * bq.den)

/-- The inner loop of `correct_input_start_times`: starting from `INT64_MAX`,
fold `FFMIN` of each stream's start time rescaled to microseconds, skipping
streams marked `AVDISCARD_ALL` or with unknown start time. -/
def newStartTime (streams : List AVStream) : Int :=
  streams.foldl
    (fun acc st =>
      if st.discard = AVDiscard.all ∨ st.start_time = none then acc
      else min acc (av_rescale_q (st.start_time.getD 0) st.time_base AV_TIME_BASE_Q))
    INT64_MAX

/-- The user seek start of an input, or `0` when unknown: the C idiom
`ifile->start_time == AV_NOPTS_VALUE ? 0 : ifile->start_time`, used for
`abs_start_seek` (line 300) and `self_seek_start`/`ref_seek_start`
(lines 364-367). -/
def seekStart (f : InputFile) : Int :=
  match f.start_time with
  | none => 0
  | some s => s

/-- The body of `correct_input_start_times` for one input file:

* always set `start_time_effective := is->start_time`;
* skip if `is->start_time` is unknown or the format lacks `AVFMT_TS_DISCONT`;
* compute `new_start_time` as the minimum over eligible streams;
* if `diff = new_start_time - is->start_time` is nonzero, store the new
  effective start time and derive `ts_offset`, then add `input_ts_offset`. -/
def correctInput (cfg : Config) (f : InputFile) : InputFile :=
  let f0 := { f with start_time_effective := f.ctx_start_time }
  match f.ctx_start_time with
  | none => f0
  | some fst =>
    if ¬ f.ts_discont then f0
    else
      let nst := newStartTime f.streams
      let diff := nst - fst
      if diff = 0 then f0
      else
        let f1 := { f0 with start_time_effective := some nst }
        let off : Int :=
          if cfg.copy_ts ∧ cfg.start_at_zero then -nst
          else if ¬ cfg.copy_ts then
            let abs_start_seek := fst + seekStart f
            if abs_start_seek > nst then -abs_start_seek else -nst
          else 0
        { f1 with ts_offset := off + f.input_ts_offset }

/-- `correct_input_start_times`: pass 1 over the whole registry.  The C loop
reads only the per-input fields of `input_files[i]` and writes only
`input_files[i]`, so it is a `List.map`. -/
def correct_input_start_times (cfg : Config) (R : List InputFile) : List InputFile :=
  R.map (correctInput cfg)

/-! ## Cross-Input Synchronizer (`apply_sync_offsets`) -/

/-- Result of the synchronizer: the (possibly partially mutated) registry —
the C registry is global state, so mutations made before a fatal return
persist — together with `ok = true` for return value `0` and `ok = false`
for `AVERROR(EINVAL)`. -/
structure SyncResult where
  registry : List InputFile
  ok : Bool
  deriving DecidableEq, Repr

/-- Lines 351–361: pick the pair of comparable start times — both
`start_time_realtime` when known, else both `start_time_effective` when
known, else none (`start_times_set = 0`). -/
def chooseStart (self ref : InputFile) : Option (Int × Int) :=
  match self.start_time_realtime, ref.start_time_realtime with
  | some a, some b => some (a, b)
  | _, _ =>
    match self.start_time_effective, ref.start_time_effective with
    | some a, some b => some (a, b)
    | _, _ => none

/-- Line 369–371: `adjustment = (self_start_time - ref_start_time) +
!copy_ts * (self_seek_start - ref_seek_start) + ref->input_ts_offset`. -/
def syncAdjustment (cfg : Config) (s r : Int) (self ref : InputFile) : Int :=
  (s - r) + (if cfg.copy_ts then 0 else 1) * (seekStart self - seekStart ref)
    + ref.input_ts_offset

/-- One iteration of the `apply_sync_offsets` loop, acting on the current
registry `R` at index `i`.  Returns the new registry and `false` exactly on
the two `return AVERROR(EINVAL)` paths. -/
def syncStep (cfg : Config) (R : List InputFile) (i : Nat) : SyncResult :=
  match R[i]? with
  | none => ⟨R, true⟩
  | some self =>
    if self.input_sync_ref = -1 ∨ self.input_sync_ref = (i : Int) then ⟨R, true⟩
    else if (R.length : Int) ≤ self.input_sync_ref ∨ self.input_sync_ref < -1 then
      ⟨R, false⟩
    else if cfg.copy_ts ∧ ¬ cfg.start_at_zero then ⟨R, false⟩
    else
      match R[self.input_sync_ref.toNat]? with
      | none => ⟨R, true⟩
      | some ref =>
        if ref.input_sync_ref ≠ -1 ∧ ref.input_sync_ref ≠ self.input_sync_ref then
          ⟨R, true⟩
        else
          match chooseStart self ref with
          | none => ⟨R, true⟩
          | some (s, r) =>
            ⟨R.set i { self with
                ts_offset := self.ts_offset + syncAdjustment cfg s r self ref },
              true⟩

/-- The `for` loop of `apply_sync_offsets` over a list of indices, stopping
at the first fatal step. -/
def applySyncLoop (cfg : Config) : List Nat → List InputFile → SyncResult
  | [], R => ⟨R, true⟩
  | i :: is, R =>
    let st := syncStep cfg R i
    if st.ok then applySyncLoop cfg is st.registry else st

/-- `apply_sync_offsets`: pass 2 over the whole registry, indices
`0, …, nb_input_files - 1`. -/
def apply_sync_offsets (cfg : Config) (R : List InputFile) : SyncResult :=
  applySyncLoop cfg (List.range R.length) R

/-! ### Classifiers

Per-index classifiers computed from a registry: whether the step at `i` is
fatal, whether it adjusts `ts_offset`, and by how much.  They read only
fields that `apply_sync_offsets` never writes, which is what makes the loop
analyzable against the initial registry. -/

/-- Input `i` has an active (non-"none", non-self) sync reference. -/
def activeRefB (R : List InputFile) (i : Nat) : Bool :=
  match R[i]? with
  | none => false
  | some f => decide (f.input_sync_ref ≠ -1 ∧ f.input_sync_ref ≠ (i : Int))

/-- Input `i`'s sync reference is out of range (`≥ nb_input_files` or
`< -1`). -/
def oorB (R : List InputFile) (i : Nat) : Bool :=
  match R[i]? with
  | none => false
  | some f => decide ((R.length : Int) ≤ f.input_sync_ref ∨ f.input_sync_ref < -1)

/-- The three possible outcomes of one synchronizer step: a silent or logged
skip, a fatal `AVERROR(EINVAL)` return, or an adjustment of `ts_offset` by
`d`. -/
inductive StepClass where
  | skipClass
  | fatalClass
  | adjustClass (d : Int)
  deriving DecidableEq, Repr

/-- Classify the step at index `i`, following exactly the early-exit cascade
of the loop body of `apply_sync_offsets`.  It reads no `ts_offset` field, so
it is invariant under the mutations the loop itself performs. -/
def stepClass (cfg : Config) (R : List InputFile) (i : Nat) : StepClass :=
  match R[i]? with
  | none => .skipClass
  | some self =>
    if self.input_sync_ref = -1 ∨ self.input_sync_ref = (i : Int) then .skipClass
    else if (R.length : Int) ≤ self.input_sync_ref ∨ self.input_sync_ref < -1 then
      .fatalClass
    else if cfg.copy_ts ∧ ¬ cfg.start_at_zero then .fatalClass
    else
      match R[self.input_sync_ref.toNat]? with
      | none => .skipClass
      | some ref =>
        if ref.input_sync_ref ≠ -1 ∧ ref.input_sync_ref ≠ self.input_sync_ref then
          .skipClass
        else
          match chooseStart self ref with
          | none => .skipClass
          | some (s, r) => .adjustClass (syncAdjustment cfg s r self ref)

/-- Adding `d` to the `ts_offset` of an input. -/
def tsAdd (d : Int) (f : InputFile) : InputFile :=
  { f with ts_offset := f.ts_offset + d }

/-- Erase the one field the synchronizer mutates. -/
def skel (f : InputFile) : InputFile :=
  { f with ts_offset := 0 }

/-- The list of candidate start times considered by the Start-Time
Corrector's inner loop: one microsecond-rescaled value per stream that is
neither marked `AVDISCARD_ALL` nor missing a start time, in stream order. -/
def eligibleStarts (streams : List AVStream) : List Int :=
  (streams.filter
      (fun st => !decide (st.discard = AVDiscard.all ∨ st.start_time = none))).map
    (fun st => av_rescale_q (st.start_time.getD 0) st.time_base AV_TIME_BASE_Q)

/-! ### Concrete sample data

Small closed registries used to evaluate the two passes on explicit inputs.
`InputFile` fields in order: `ctx_start_time`, `ts_discont`, `streams`,
`start_time_realtime`, `start_time`, `start_time_effective`, `ts_offset`,
`input_ts_offset`, `input_sync_ref`. -/

/-- Both flags off (`-copyts` absent, `-start_at_zero` absent). -/
def cfgOff : Config := ⟨false, false⟩

/-- An input with one eligible stream starting at 2000 µs, container start
100 µs, discontinuous timestamps, user base offset 7. -/
def exFileA : InputFile :=
  ⟨some 100, true, [⟨some 2000, ⟨1, 1000000⟩, .keepAll⟩], none, none, none, 0, 7, -1⟩

/-- Streams at 5000, 2000 and 8000 µs, none discarded. -/
def exStreams : List AVStream :=
  [⟨some 5000, ⟨1, 1000000⟩, .keepAll⟩, ⟨some 2000, ⟨1, 1000000⟩, .keepAll⟩,
   ⟨some 8000, ⟨1, 1000000⟩, .keepAll⟩]

/-- An input carrying `exStreams`, container start 100 µs. -/
def exFileMin : InputFile := ⟨some 100, true, exStreams, none, none, none, 0, 0, -1⟩

/-- A discontinuous-timestamp input whose only stream is marked
`AVDISCARD_ALL`: no stream is eligible for the minimum. -/
def exFileDiscard : InputFile :=
  ⟨some 0, true, [⟨some 5, ⟨1, 90000⟩, .all⟩], none, none, none, 0, 0, -1⟩

/-- A sync target: no sync reference of its own, effective start 1 000 000 µs,
accumulated `ts_offset` 500 but user base offset 0. -/
def exRefFile : InputFile := ⟨none, false, [], none, none, some 1000000, 500, 0, -1⟩

/-- An input whose sync reference is input 0, effective start 1 200 000 µs. -/
def exSelfFile : InputFile := ⟨none, false, [], none, none, some 1200000, 0, 0, 0⟩

/-- Two inputs: input 1 aligns to input 0. -/
def exRegPair : List InputFile := [exRefFile, exSelfFile]

/-- Three inputs: input 0 aligns to input 1, input 1 has no reference, and
input 2 names the nonexistent input 99. -/
def exRegBad : List InputFile :=
  [⟨none, false, [], none, none, some 1200000, 0, 0, 1⟩,
   ⟨none, false, [], none, none, some 1000000, 0, 0, -1⟩,
   ⟨none, false, [], none, none, some 0, 0, 0, 99⟩]

/-- Two inputs with no known start times at all: input 1 references input 0
but no comparable start-time pair exists. -/
def exRegNoStart : List InputFile :=
  [⟨none, false, [], none, none, none, 3, 0, -1⟩,
   ⟨none, false, [], none, none, none, 4, 0, 0⟩]

/-- Two inputs that mutually reference each other. -/
def exRegMutual : List InputFile :=
  [⟨none, false, [], none, none, some 100, 11, 0, 1⟩,
   ⟨none, false, [], none, none, some 200, 22, 0, 0⟩]

/-! ### Helper lemmas -/

theorem skel_tsAdd (d : Int) (f : InputFile) : skel (tsAdd d f) = skel f := by
  cases f; rfl

theorem skel_fields {f g : InputFile} (h : skel f = skel g) :
    f.ctx_start_time = g.ctx_start_time ∧ f.ts_discont = g.ts_discont ∧
    f.streams = g.streams ∧ f.start_time_realtime = g.start_time_realtime ∧
    f.start_time = g.start_time ∧
    f.start_time_effective = g.start_time_effective ∧
    f.input_ts_offset = g.input_ts_offset ∧
    f.input_sync_ref = g.input_sync_ref := by
  cases f; cases g
  simp only [skel, InputFile.mk.injEq] at h ⊢
  exact ⟨h.1, h.2.1, h.2.2.1, h.2.2.2.1, h.2.2.2.2.1, h.2.2.2.2.2.1,
    h.2.2.2.2.2.2.2.1, h.2.2.2.2.2.2.2.2⟩

theorem length_of_skelEq {R R' : List InputFile}
    (h : R'.map skel = R.map skel) : R'.length = R.length := by
  have := congrArg List.length h
  simpa using this

theorem get?_skel {R R' : List InputFile} (h : R'.map skel = R.map skel)
    (j : Nat) : R'[j]?.map skel = R[j]?.map skel := by
  have h1 : (R'.map skel)[j]? = (R.map skel)[j]? := by rw [h]
  simpa [List.getElem?_map] using h1

theorem seekStart_congr {f g : InputFile} (h : skel f = skel g) :
    seekStart f = seekStart g := by
  unfold seekStart
  rw [(skel_fields h).2.2.2.2.1]

theorem chooseStart_congr {a a' b b' : InputFile}
    (ha : skel a' = skel a) (hb : skel b' = skel b) :
    chooseStart a' b' = chooseStart a b := by
  unfold chooseStart
  rw [(skel_fields ha).2.2.2.1, (skel_fields hb).2.2.2.1,
    (skel_fields ha).2.2.2.2.2.1, (skel_fields hb).2.2.2.2.2.1]

theorem syncAdjustment_congr {cfg : Config} {s r : Int} {a a' b b' : InputFile}
    (ha : skel a' = skel a) (hb : skel b' = skel b) :
    syncAdjustment cfg s r a' b' = syncAdjustment cfg s r a b := by
  unfold syncAdjustment
  rw [seekStart_congr ha, seekStart_congr hb, (skel_fields hb).2.2.2.2.2.2.1]

theorem activeRefB_congr {R R' : List InputFile}
    (h : R'.map skel = R.map skel) (i : Nat) :
    activeRefB R' i = activeRefB R i := by
  unfold activeRefB
  have hg := get?_skel h i
  cases h1 : R'[i]? with
  | none =>
    cases h2 : R[i]? with
    | none => rfl
    | some f => rw [h1, h2] at hg; simp at hg
  | some f' =>
    cases h2 : R[i]? with
    | none => rw [h1, h2] at hg; simp at hg
    | some f =>
      rw [h1, h2] at hg
      simp only [Option.map_some', Option.some.injEq] at hg
      simp only [(skel_fields hg).2.2.2.2.2.2.2]

theorem oorB_congr {R R' : List InputFile}
    (h : R'.map skel = R.map skel) (i : Nat) :
    oorB R' i = oorB R i := by
  unfold oorB
  have hg := get?_skel h i
  have hl := length_of_skelEq h
  cases h1 : R'[i]? with
  | none =>
    cases h2 : R[i]? with
    | none => rfl
    | some f => rw [h1, h2] at hg; simp at hg
  | some f' =>
    cases h2 : R[i]? with
    | none => rw [h1, h2] at hg; simp at hg
    | some f =>
      rw [h1, h2] at hg
      simp only [Option.map_some', Option.some.injEq] at hg
      simp only [(skel_fields hg).2.2.2.2.2.2.2, hl]

theorem stepClass_congr {cfg : Config} {R R' : List InputFile}
    (h : R'.map skel = R.map skel) (i : Nat) :
    stepClass cfg R' i = stepClass cfg R i := by
  unfold stepClass
  have hg := get?_skel h i
  have hl := length_of_skelEq h
  cases h1 : R'[i]? with
  | none =>
    cases h2 : R[i]? with
    | none => rfl
    | some f => rw [h1, h2] at hg; simp at hg
  | some f' =>
    cases h2 : R[i]? with
    | none => rw [h1, h2] at hg; simp at hg
    | some f =>
      rw [h1, h2] at hg
      simp only [Option.map_some', Option.some.injEq] at hg
      have hfs := skel_fields hg
      simp only [hfs.2.2.2.2.2.2.2, hl]
      have hg2 := get?_skel h f.input_sync_ref.toNat
      cases h3 : R'[f.input_sync_ref.toNat]? with
      | none =>
        cases h4 : R[f.input_sync_ref.toNat]? with
        | none => rfl
        | some g => rw [h3, h4] at hg2; simp at hg2
      | some g' =>
        cases h4 : R[f.input_sync_ref.toNat]? with
        | none => rw [h3, h4] at hg2; simp at hg2
        | some g =>
          rw [h3, h4] at hg2
          simp only [Option.map_some', Option.some.injEq] at hg2
          have hgs := skel_fields hg2
          simp only [hgs.2.2.2.2.2.2.2, chooseStart_congr hg hg2]
          cases chooseStart f g with
          | none => rfl
          | some p => simp only [syncAdjustment_congr hg hg2]

/-! ### Characterization of one synchronizer step by its class -/

theorem syncStep_char (cfg : Config) (R : List InputFile) (i : Nat) :
    syncStep cfg R i =
      match stepClass cfg R i, R[i]? with
      | .fatalClass, _ => ⟨R, false⟩
      | .adjustClass d, some self => ⟨R.set i (tsAdd d self), true⟩
      | _, _ => ⟨R, true⟩ := by
  unfold syncStep stepClass
  cases hRi : R[i]? with
  | none => rfl
  | some self =>
    dsimp only
    by_cases hA : self.input_sync_ref = -1 ∨ self.input_sync_ref = (i : Int)
    · simp only [if_pos hA]
    · simp only [if_neg hA]
      by_cases hB : (R.length : Int) ≤ self.input_sync_ref ∨ self.input_sync_ref < -1
      · simp only [if_pos hB]
      · simp only [if_neg hB]
        by_cases hC : cfg.copy_ts ∧ ¬ cfg.start_at_zero
        · simp only [if_pos hC]
        · simp only [if_neg hC]
          cases hRef : R[self.input_sync_ref.toNat]? with
          | none => rfl
          | some ref =>
            dsimp only
            by_cases hD : ref.input_sync_ref ≠ -1 ∧
                ref.input_sync_ref ≠ self.input_sync_ref
            · simp only [if_pos hD]
            · simp only [if_neg hD]
              cases hCh : chooseStart self ref with
              | none => rfl
              | some p => obtain ⟨s, r⟩ := p; rfl

theorem syncStep_skipped {cfg : Config} {R : List InputFile} {i : Nat}
    (h : stepClass cfg R i = .skipClass) : syncStep cfg R i = ⟨R, true⟩ := by
  rw [syncStep_char, h]

theorem syncStep_fatal {cfg : Config} {R : List InputFile} {i : Nat}
    (h : stepClass cfg R i = .fatalClass) : syncStep cfg R i = ⟨R, false⟩ := by
  rw [syncStep_char, h]

theorem syncStep_adjusted {cfg : Config} {R : List InputFile} {i : Nat} {d : Int}
    (h : stepClass cfg R i = .adjustClass d) :
    ∃ self, R[i]? = some self ∧
      syncStep cfg R i = ⟨R.set i (tsAdd d self), true⟩ := by
  cases hRi : R[i]? with
  | none =>
    unfold stepClass at h
    rw [hRi] at h
    simp at h
  | some self =>
    refine ⟨self, rfl, ?_⟩
    rw [syncStep_char, h, hRi]

/-! ### Loop lemmas -/

theorem skel_set {R : List InputFile} {i : Nat} {f : InputFile}
    (h : R[i]? = some f) (d : Int) :
    (R.set i (tsAdd d f)).map skel = R.map skel := by
  apply List.ext_getElem?
  intro j
  rw [List.getElem?_map, List.getElem?_map]
  by_cases hj : i = j
  · subst hj
    rw [List.getElem?_set_self (List.getElem?_eq_some.mp h).1, h]
    simp [skel_tsAdd]
  · rw [List.getElem?_set_ne hj]

theorem applySyncLoop_cons_fatal {cfg : Config} {R : List InputFile} {i : Nat}
    (is : List Nat) (h : stepClass cfg R i = .fatalClass) :
    applySyncLoop cfg (i :: is) R = ⟨R, false⟩ := by
  simp only [applySyncLoop]
  rw [syncStep_fatal h]
  rfl

theorem applySyncLoop_cons_skip {cfg : Config} {R : List InputFile} {i : Nat}
    (is : List Nat) (h : stepClass cfg R i = .skipClass) :
    applySyncLoop cfg (i :: is) R = applySyncLoop cfg is R := by
  simp only [applySyncLoop]
  rw [syncStep_skipped h]
  rfl

theorem applySyncLoop_cons_adjust {cfg : Config} {R : List InputFile} {i : Nat}
    {d : Int} (is : List Nat) (h : stepClass cfg R i = .adjustClass d) :
    ∃ self, R[i]? = some self ∧
      applySyncLoop cfg (i :: is) R = applySyncLoop cfg is (R.set i (tsAdd d self)) := by
  obtain ⟨self, hself, hstep⟩ := syncStep_adjusted h
  refine ⟨self, hself, ?_⟩
  simp only [applySyncLoop]
  rw [hstep]
  rfl

/-- The loop returns `0` iff no visited index classifies as fatal; the
classification may be read off any registry that agrees with the current one
outside `ts_offset`. -/
theorem applySyncLoop_ok {cfg : Config} {R0 : List InputFile} :
    ∀ (idxs : List Nat) (R' : List InputFile), R'.map skel = R0.map skel →
      (applySyncLoop cfg idxs R').ok =
        idxs.all (fun i => decide (stepClass cfg R0 i ≠ StepClass.fatalClass)) := by
  intro idxs
  induction idxs with
  | nil => intro R' _; rfl
  | cons i is ih =>
    intro R' hsk
    have hc := @stepClass_congr cfg R0 R' hsk i
    cases hclass : stepClass cfg R0 i with
    | fatalClass =>
      rw [applySyncLoop_cons_fatal is (hc.trans hclass)]
      simp [hclass]
    | skipClass =>
      rw [applySyncLoop_cons_skip is (hc.trans hclass)]
      simp only [List.all_cons, hclass]
      simpa using ih R' hsk
    | adjustClass d =>
      obtain ⟨self, hself, hloop⟩ := applySyncLoop_cons_adjust is (hc.trans hclass)
      rw [hloop]
      simp only [List.all_cons, hclass]
      have hsk2 : (R'.set i (tsAdd d self)).map skel = R0.map skel :=
        (skel_set hself d).trans hsk
      simpa using ih _ hsk2

/-- A loop that never visits index `j` leaves entry `j` untouched. -/
theorem applySyncLoop_frame {cfg : Config} :
    ∀ (idxs : List Nat) (R' : List InputFile) (j : Nat), (∀ i ∈ idxs, i ≠ j) →
      ((applySyncLoop cfg idxs R').registry)[j]? = R'[j]? := by
  intro idxs
  induction idxs with
  | nil => intro R' j _; rfl
  | cons i is ih =>
    intro R' j hni
    cases hclass : stepClass cfg R' i with
    | fatalClass => rw [applySyncLoop_cons_fatal is hclass]
    | skipClass =>
      rw [applySyncLoop_cons_skip is hclass]
      exact ih R' j (fun k hk => hni k (List.mem_cons_of_mem i hk))
    | adjustClass d =>
      obtain ⟨self, _, hloop⟩ := applySyncLoop_cons_adjust is hclass
      rw [hloop, ih _ j (fun k hk => hni k (List.mem_cons_of_mem i hk))]
      exact List.getElem?_set_ne (hni i (List.mem_cons_self i is))

/-- If the step at `j` itself never adjusts, entry `j` survives the whole
loop untouched: every other step writes only its own index. -/
theorem applySyncLoop_frame_noadjust {cfg : Config} {R0 : List InputFile} :
    ∀ (idxs : List Nat) (R' : List InputFile) (j : Nat),
      R'.map skel = R0.map skel →
      (∀ d : Int, stepClass cfg R0 j ≠ .adjustClass d) →
      ((applySyncLoop cfg idxs R').registry)[j]? = R'[j]? := by
  intro idxs
  induction idxs with
  | nil => intro R' j _ _; rfl
  | cons i is ih =>
    intro R' j hsk hnadj
    have hc := @stepClass_congr cfg R0 R' hsk i
    cases hclass : stepClass cfg R0 i with
    | fatalClass => rw [applySyncLoop_cons_fatal is (hc.trans hclass)]
    | skipClass =>
      rw [applySyncLoop_cons_skip is (hc.trans hclass)]
      exact ih R' j hsk hnadj
    | adjustClass d =>
      obtain ⟨self, hself, hloop⟩ := applySyncLoop_cons_adjust is (hc.trans hclass)
      have hij : i ≠ j := by
        intro hij
        exact hnadj d (hij ▸ hclass)
      rw [hloop, ih _ j ((skel_set hself d).trans hsk) hnadj]
      exact List.getElem?_set_ne hij

/-- Once some index `k ≤ j` in the (strictly increasing) worklist classifies
as fatal, entry `j` is untouched by the loop: the loop stops at the first
fatal index, which is at most `k`, and the steps before it write only
indices below `k ≤ j`. -/
theorem applySyncLoop_stopframe {cfg : Config} {R0 : List InputFile} :
    ∀ (idxs : List Nat) (R' : List InputFile) (j : Nat),
      R'.map skel = R0.map skel →
      idxs.Pairwise (· < ·) →
      (∃ k ∈ idxs, stepClass cfg R0 k = .fatalClass ∧ k ≤ j) →
      ((applySyncLoop cfg idxs R').registry)[j]? = R'[j]? := by
  intro idxs
  induction idxs with
  | nil => intro R' j _ _ hex; exact absurd hex (by simp)
  | cons i is ih =>
    intro R' j hsk hpw hex
    have hc := @stepClass_congr cfg R0 R' hsk i
    cases hclass : stepClass cfg R0 i with
    | fatalClass => rw [applySyncLoop_cons_fatal is (hc.trans hclass)]
    | skipClass =>
      rw [applySyncLoop_cons_skip is (hc.trans hclass)]
      refine ih R' j hsk (List.Pairwise.sublist (List.sublist_cons_self i is) hpw) ?_
      obtain ⟨k, hk, hkf, hkj⟩ := hex
      rcases List.mem_cons.mp hk with hk | hk
      · exact absurd (hk ▸ hkf) (by rw [hclass]; simp)
      · exact ⟨k, hk, hkf, hkj⟩
    | adjustClass d =>
      obtain ⟨self, hself, hloop⟩ := applySyncLoop_cons_adjust is (hc.trans hclass)
      obtain ⟨k, hk, hkf, hkj⟩ := hex
      have hkis : k ∈ is := by
        rcases List.mem_cons.mp hk with hk | hk
        · exact absurd (hk ▸ hkf) (by rw [hclass]; simp)
        · exact hk
      have hik : i < k := (List.pairwise_cons.mp hpw).1 k hkis
      have hij : i ≠ j := by omega
      rw [hloop, ih _ j ((skel_set hself d).trans hsk)
        (List.Pairwise.sublist (List.sublist_cons_self i is) hpw)
        ⟨k, hkis, hkf, hkj⟩]
      exact List.getElem?_set_ne hij

/-! ### Start-Time Corrector lemmas -/

theorem foldl_min_shift :
    ∀ (t : List Int) (x y : Int), t.foldl min (min x y) = min x (t.foldl min y) := by
  intro t
  induction t with
  | nil => intro x y; rfl
  | cons b t ih =>
    intro x y
    simp only [List.foldl_cons]
    rw [min_assoc, ih]

theorem newStartTime_eq_fold (streams : List AVStream) :
    newStartTime streams = (eligibleStarts streams).foldl min INT64_MAX := by
  unfold newStartTime eligibleStarts
  have main : ∀ (l : List AVStream) (init : Int),
      l.foldl
        (fun acc st =>
          if st.discard = AVDiscard.all ∨ st.start_time = none then acc
          else min acc (av_rescale_q (st.start_time.getD 0) st.time_base AV_TIME_BASE_Q))
        init =
      ((l.filter
          (fun st => !decide (st.discard = AVDiscard.all ∨ st.start_time = none))).map
        (fun st => av_rescale_q (st.start_time.getD 0) st.time_base AV_TIME_BASE_Q)).foldl
        min init := by
    intro l
    induction l with
    | nil => intro init; rfl
    | cons st t ih =>
      intro init
      by_cases hst : st.discard = AVDiscard.all ∨ st.start_time = none
      · simp only [List.foldl_cons, if_pos hst, List.filter_cons,
          decide_eq_true hst, Bool.not_true, if_neg]
        exact ih init
      · simp only [List.foldl_cons, if_neg hst, List.filter_cons,
          decide_eq_false hst, Bool.not_false, if_pos, List.map_cons]
        exact ih _
  exact main streams INT64_MAX

theorem foldl_min_of_min? {l : List Int} {m : Int} (h : l.min? = some m)
    (init : Int) : l.foldl min init = min init m := by
  cases l with
  | nil => simp at h
  | cons a t =>
    simp only [List.min?_cons', Option.some.injEq] at h
    simp only [List.foldl_cons]
    rw [foldl_min_shift, h]

theorem correctInput_none {cfg : Config} {f : InputFile}
    (h : f.ctx_start_time = none) :
    correctInput cfg f = { f with start_time_effective := none } := by
  unfold correctInput
  rw [h]

theorem correctInput_nodiscont {cfg : Config} {f : InputFile} {fst : Int}
    (hc : f.ctx_start_time = some fst) (hd : f.ts_discont = false) :
    correctInput cfg f = { f with start_time_effective := some fst } := by
  unfold correctInput
  rw [hc]
  dsimp only
  rw [if_pos (by simp [hd])]

theorem correctInput_zero {cfg : Config} {f : InputFile} {fst : Int}
    (hc : f.ctx_start_time = some fst) (hd : f.ts_discont = true)
    (hz : newStartTime f.streams = fst) :
    correctInput cfg f = { f with start_time_effective := some fst } := by
  unfold correctInput
  rw [hc]
  dsimp only
  rw [if_neg (by simp [hd]), if_pos (by rw [hz, sub_self])]

theorem correctInput_main {cfg : Config} {f : InputFile} {fst : Int}
    (hc : f.ctx_start_time = some fst) (hd : f.ts_discont = true)
    (hnz : newStartTime f.streams ≠ fst) :
    correctInput cfg f = { f with
      start_time_effective := some (newStartTime f.streams),
      ts_offset :=
        (if cfg.copy_ts ∧ cfg.start_at_zero then -(newStartTime f.streams)
         else if ¬ cfg.copy_ts then
           (if fst + seekStart f > newStartTime f.streams then -(fst + seekStart f)
            else -(newStartTime f.streams))
         else 0) + f.input_ts_offset } := by
  unfold correctInput
  rw [hc]
  dsimp only
  rw [if_neg (by simp [hd]), if_neg (by intro h0; exact hnz (by omega))]

theorem correctInput_idem (cfg : Config) (f : InputFile) :
    correctInput cfg (correctInput cfg f) = correctInput cfg f := by
  cases hct : f.ctx_start_time with
  | none =>
    rw [correctInput_none hct, correctInput_none (by exact hct)]
  | some fst =>
    cases hdb : f.ts_discont with
    | false =>
      rw [correctInput_nodiscont hct hdb, correctInput_nodiscont (by exact hct) (by exact hdb)]
    | true =>
      by_cases hz : newStartTime f.streams = fst
      · rw [correctInput_zero hct hdb hz,
          correctInput_zero (by exact hct) (by exact hdb) (by exact hz)]
      · rw [correctInput_main hct hdb hz]
        rw [correctInput_main (by exact hct) (by exact hdb) (by exact hz)]
        rfl

/-! ## Claim theorems: Start-Time Corrector -/

/-- C7: Running the Start-Time Corrector twice over the same registry yields
the same registry state as running it once — for every input,
`start_time_effective` and `ts_offset` (and indeed every field) after the
second pass equal their values after the first pass. -/
theorem c7_corrector_idempotent (cfg : Config) (R : List InputFile) :
    correct_input_start_times cfg (correct_input_start_times cfg R) =
      correct_input_start_times cfg R := by
  unfold correct_input_start_times
  rw [List.map_map]
  exact List.map_congr_left (fun f _ => correctInput_idem cfg f)

/-- C4: for a corrected input with nonzero delta, the derived `ts_offset` is
`-newEffectiveStart` when copy-ts and start-at-zero are both set,
`-max(absoluteStartSeek, newEffectiveStart)` when copy-ts is off (with
`absoluteStartSeek = formatStartTime + (userStartTime if known else 0)`),
and `0` otherwise; the user-supplied `input_ts_offset` is then added. -/
theorem c4_ts_offset_formula (cfg : Config) (f : InputFile) (fst : Int)
    (h1 : f.ctx_start_time = some fst) (h2 : f.ts_discont = true)
    (h3 : newStartTime f.streams ≠ fst) :
    (correctInput cfg f).ts_offset =
      (if cfg.copy_ts ∧ cfg.start_at_zero then -(newStartTime f.streams)
       else if ¬ cfg.copy_ts then
         -(max (fst + seekStart f) (newStartTime f.streams))
       else 0) + f.input_ts_offset := by
  rw [correctInput_main h1 h2 h3]
  dsimp only
  congr 1
  split_ifs with hA hB hC
  · rfl
  · rfl
  · rw [max_eq_left (le_of_lt hC)]
  · rw [max_eq_right (not_lt.mp hC)]

/-- Witness for C4 at a concrete input: flags off, container start 100 µs,
stream minimum 2000 µs, base offset 7. -/
theorem c4_ts_offset_formula_witness :
    (correctInput cfgOff exFileA).ts_offset =
      (if cfgOff.copy_ts ∧ cfgOff.start_at_zero then -(newStartTime exFileA.streams)
       else if ¬ cfgOff.copy_ts then
         -(max ((100 : Int) + seekStart exFileA) (newStartTime exFileA.streams))
       else 0) + exFileA.input_ts_offset :=
  c4_ts_offset_formula cfgOff exFileA 100 (by decide) (by decide) (by decide)

/-- C5: when a discontinuous-timestamp input with known container start time
has at least one stream that is neither discarded nor missing a start time,
the corrected `start_time_effective` is the minimum of the eligible streams'
start times rescaled to microseconds (whenever that minimum fits in a signed
64-bit value, as it always does for values produced by the C code). -/
theorem c5_effective_start_is_min (cfg : Config) (f : InputFile) (fst m : Int)
    (h1 : f.ctx_start_time = some fst) (h2 : f.ts_discont = true)
    (hmin : (eligibleStarts f.streams).min? = some m) (hbound : m ≤ INT64_MAX) :
    (correctInput cfg f).start_time_effective = some m := by
  have hnst : newStartTime f.streams = m := by
    rw [newStartTime_eq_fold, foldl_min_of_min? hmin INT64_MAX]
    exact min_eq_right hbound
  by_cases hz : newStartTime f.streams = fst
  · rw [correctInput_zero h1 h2 hz]
    dsimp only
    rw [← hz, hnst]
  · rw [correctInput_main h1 h2 hz]
    dsimp only
    rw [hnst]

/-- Witness for C5: streams at {5000, 2000, 8000} µs yield an effective
start time of 2000 µs (the spec's own example). -/
theorem c5_effective_start_is_min_witness :
    (correctInput cfgOff exFileMin).start_time_effective = some 2000 :=
  c5_effective_start_is_min cfgOff exFileMin 100 2000 (by decide) (by decide)
    (by decide) (by decide)

/-- C2 (code bug): a discontinuous-timestamp input with known container
start time `0` and no eligible stream is NOT left unmodified — the minimum
accumulator stays at its `INT64_MAX` sentinel, `diff = INT64_MAX ≠ 0`, and
the corrector publishes `start_time_effective = INT64_MAX` and
`ts_offset = -INT64_MAX`, contradicting the documented no-op. -/
theorem c2_no_eligible_stream_bug :
    (correctInput cfgOff exFileDiscard).start_time_effective = some INT64_MAX ∧
    (correctInput cfgOff exFileDiscard).ts_offset = -INT64_MAX ∧
    exFileDiscard.ctx_start_time = some 0 ∧ exFileDiscard.ts_offset = 0 ∧
    (correctInput cfgOff exFileDiscard).start_time_effective ≠
      exFileDiscard.ctx_start_time := by
  refine ⟨by decide, by decide, by decide, by decide, by decide⟩

/-! ### Classification helper lemmas -/

theorem stepClass_none {cfg : Config} {R : List InputFile} {i : Nat}
    (h : R[i]? = none) : stepClass cfg R i = .skipClass := by
  unfold stepClass
  rw [h]

theorem lt_length_of_activeRefB {R : List InputFile} {i : Nat}
    (h : activeRefB R i = true) : i < R.length := by
  unfold activeRefB at h
  cases hRi : R[i]? with
  | none => rw [hRi] at h; simp at h
  | some f => exact (List.getElem?_eq_some.mp hRi).1

theorem stepClass_fatal_iff (cfg : Config) (R : List InputFile) (i : Nat) :
    stepClass cfg R i = .fatalClass ↔
      activeRefB R i = true ∧
        (oorB R i = true ∨ (cfg.copy_ts = true ∧ cfg.start_at_zero = false)) := by
  unfold stepClass activeRefB oorB
  cases hRi : R[i]? with
  | none => simp
  | some self =>
    dsimp only
    by_cases hA : self.input_sync_ref = -1 ∨ self.input_sync_ref = (i : Int)
    · rw [if_pos hA]
      refine iff_of_false (by simp) ?_
      rintro ⟨hact, -⟩
      rw [decide_eq_true_eq] at hact
      tauto
    · rw [if_neg hA]
      push_neg at hA
      by_cases hB : (R.length : Int) ≤ self.input_sync_ref ∨ self.input_sync_ref < -1
      · rw [if_pos hB]
        exact iff_of_true rfl ⟨by rw [decide_eq_true_eq]; exact hA,
          Or.inl (by rw [decide_eq_true_eq]; exact hB)⟩
      · rw [if_neg hB]
        by_cases hC : cfg.copy_ts ∧ ¬ cfg.start_at_zero
        · rw [if_pos hC]
          refine iff_of_true rfl ⟨by rw [decide_eq_true_eq]; exact hA, Or.inr ?_⟩
          exact ⟨hC.1, by simpa using hC.2⟩
        · rw [if_neg hC]
          refine iff_of_false ?_ ?_
          · cases hRef : R[self.input_sync_ref.toNat]? with
            | none => simp
            | some ref =>
              dsimp only
              split_ifs with hD
              · simp
              · cases hCh : chooseStart self ref with
                | none => simp
                | some p => obtain ⟨s, r⟩ := p; simp
          · rintro ⟨-, hor⟩
            rcases hor with h | h
            · rw [decide_eq_true_eq] at h
              exact hB h
            · exact hC ⟨h.1, by simp [h.2]⟩

theorem stepClass_skip_of_chained {cfg : Config} {R : List InputFile} {i : Nat}
    {self ref : InputFile} (hself : R[i]? = some self)
    (hactive : self.input_sync_ref ≠ -1 ∧ self.input_sync_ref ≠ (i : Int))
    (hrange : ¬ ((R.length : Int) ≤ self.input_sync_ref ∨ self.input_sync_ref < -1))
    (hflags : ¬ (cfg.copy_ts ∧ ¬ cfg.start_at_zero))
    (href : R[self.input_sync_ref.toNat]? = some ref)
    (hchain : ref.input_sync_ref ≠ -1 ∧ ref.input_sync_ref ≠ self.input_sync_ref) :
    stepClass cfg R i = .skipClass := by
  unfold stepClass
  rw [hself]
  dsimp only
  rw [if_neg (by tauto), if_neg hrange, if_neg hflags, href]
  dsimp only
  rw [if_pos hchain]

/-! ## Claim theorems: Cross-Input Synchronizer -/

/-- C1 (amended): for an input with a valid non-self, non-chained sync
reference and comparable start times, the synchronizer adds to its
`ts_offset` exactly `(selfStart - refStart) + (copyTimestamps ? 0 : 1) *
(selfSeekStart - refSeekStart) + ref.input_ts_offset` — the reference's
USER-SUPPLIED base input timestamp offset (`input_ts_offset`), not the
accumulated demux-time `ts_offset` mutated by the Start-Time Corrector. -/
theorem c1_adjustment_formula (cfg : Config) (R : List InputFile) (i : Nat)
    (self ref : InputFile) (s r : Int)
    (hself : R[i]? = some self)
    (hactive : self.input_sync_ref ≠ -1 ∧ self.input_sync_ref ≠ (i : Int))
    (hrange : ¬ ((R.length : Int) ≤ self.input_sync_ref ∨ self.input_sync_ref < -1))
    (hflags : ¬ (cfg.copy_ts ∧ ¬ cfg.start_at_zero))
    (href : R[self.input_sync_ref.toNat]? = some ref)
    (hnochain : ¬ (ref.input_sync_ref ≠ -1 ∧ ref.input_sync_ref ≠ self.input_sync_ref))
    (hstart : chooseStart self ref = some (s, r)) :
    syncStep cfg R i =
      ⟨R.set i { self with ts_offset := self.ts_offset +
          ((s - r) + (if cfg.copy_ts then 0 else 1) * (seekStart self - seekStart ref)
            + ref.input_ts_offset) }, true⟩ := by
  unfold syncStep
  rw [hself]
  dsimp only
  rw [if_neg (by tauto), if_neg hrange, if_neg hflags, href]
  dsimp only
  rw [if_neg hnochain, hstart]
  rfl

/-- Witness for C1 (amended) on the two-input registry `exRegPair`:
input 1 aligns to input 0 using the effective start times 1 200 000 and
1 000 000 µs and input 0's user base offset 0. -/
theorem c1_adjustment_formula_witness :
    syncStep cfgOff exRegPair 1 =
      ⟨exRegPair.set 1 { exSelfFile with ts_offset := exSelfFile.ts_offset +
          ((1200000 - 1000000) +
            (if cfgOff.copy_ts then 0 else 1) *
              (seekStart exSelfFile - seekStart exRefFile)
            + exRefFile.input_ts_offset) }, true⟩ :=
  c1_adjustment_formula cfgOff exRegPair 1 exSelfFile exRefFile 1200000 1000000
    (by decide) (by decide) (by decide) (by decide) (by decide) (by decide)
    (by decide)

/-- C1 counterexample: on `exRegPair` the synchronizer adds 200 000 µs to
input 1's `ts_offset` (using input 0's `input_ts_offset = 0`), NOT the
200 500 µs that the claim's formula predicts from input 0's accumulated
`ts_offset = 500`. -/
theorem c1_claim_counterexample :
    ((apply_sync_offsets cfgOff exRegPair).registry[1]?).map InputFile.ts_offset =
      some (exSelfFile.ts_offset + 200000) ∧
    exRefFile.ts_offset = 500 ∧
    exSelfFile.ts_offset +
        ((1200000 - 1000000) + 1 * (seekStart exSelfFile - seekStart exRefFile)
          + exRefFile.ts_offset) ≠ exSelfFile.ts_offset + 200000 := by
  exact ⟨by decide, by decide, by decide⟩

/-- Shared helper: any of the four skip conditions makes the step a no-op
that lets the loop continue. -/
theorem syncStep_skip_cases (cfg : Config) (R : List InputFile) (i : Nat)
    (self : InputFile) (hself : R[i]? = some self)
    (hskip :
      self.input_sync_ref = -1 ∨ self.input_sync_ref = (i : Int) ∨
      (¬ ((R.length : Int) ≤ self.input_sync_ref ∨ self.input_sync_ref < -1) ∧
        ¬ (cfg.copy_ts ∧ ¬ cfg.start_at_zero) ∧
        ∃ ref, R[self.input_sync_ref.toNat]? = some ref ∧
          ((ref.input_sync_ref ≠ -1 ∧ ref.input_sync_ref ≠ self.input_sync_ref) ∨
            chooseStart self ref = none))) :
    syncStep cfg R i = ⟨R, true⟩ ∧
    ∀ rest : List Nat, applySyncLoop cfg (i :: rest) R = applySyncLoop cfg rest R := by
  have hstep : syncStep cfg R i = ⟨R, true⟩ := by
    unfold syncStep
    rw [hself]
    dsimp only
    rcases hskip with h | h | ⟨hr, hf, ref, hrefeq, hcase⟩
    · rw [if_pos (Or.inl h)]
    · rw [if_pos (Or.inr h)]
    · by_cases hA : self.input_sync_ref = -1 ∨ self.input_sync_ref = (i : Int)
      · rw [if_pos hA]
      · rw [if_neg hA, if_neg hr, if_neg hf, hrefeq]
        dsimp only
        by_cases hch : ref.input_sync_ref ≠ -1 ∧ ref.input_sync_ref ≠ self.input_sync_ref
        · rw [if_pos hch]
        · rcases hcase with hcase | hns
          · exact absurd hcase hch
          · rw [if_neg hch, hns]
  refine ⟨hstep, fun rest => ?_⟩
  simp only [applySyncLoop]
  rw [hstep]
  rfl

/-- C8: an input the synchronizer skips — no sync reference, self-reference,
a referenced input that is itself chained, or no comparable start-time pair —
has its `ts_offset` left unchanged by its synchronizer step, and the loop
simply continues with the remaining inputs. -/
theorem c8_skip_leaves_unchanged (cfg : Config) (R : List InputFile) (i : Nat)
    (self : InputFile) (hself : R[i]? = some self)
    (hskip :
      self.input_sync_ref = -1 ∨ self.input_sync_ref = (i : Int) ∨
      (¬ ((R.length : Int) ≤ self.input_sync_ref ∨ self.input_sync_ref < -1) ∧
        ¬ (cfg.copy_ts ∧ ¬ cfg.start_at_zero) ∧
        ∃ ref, R[self.input_sync_ref.toNat]? = some ref ∧
          ((ref.input_sync_ref ≠ -1 ∧ ref.input_sync_ref ≠ self.input_sync_ref) ∨
            chooseStart self ref = none))) :
    syncStep cfg R i = ⟨R, true⟩ ∧
    ∀ rest : List Nat, applySyncLoop cfg (i :: rest) R = applySyncLoop cfg rest R :=
  syncStep_skip_cases cfg R i self hself hskip

/-- Witness for C8: input 0 of `exRegPair` has no sync reference (`-1`), so
its step is a no-op and the loop carries on. -/
theorem c8_skip_leaves_unchanged_witness :
    syncStep cfgOff exRegPair 0 = ⟨exRegPair, true⟩ ∧
    ∀ rest : List Nat,
      applySyncLoop cfgOff (0 :: rest) exRegPair = applySyncLoop cfgOff rest exRegPair :=
  c8_skip_leaves_unchanged cfgOff exRegPair 0 exRefFile (by decide)
    (Or.inl (by decide))

/-- C9: the start-time pair used for synchronization is chosen by preference
order — both `start_time_realtime` when known, else both
`start_time_effective` when known — and when neither pair is fully known the
step is a non-fatal skip. -/
theorem c9_start_time_preference (cfg : Config) (R : List InputFile) (i : Nat)
    (self ref : InputFile)
    (hself : R[i]? = some self)
    (_hactive : self.input_sync_ref ≠ -1 ∧ self.input_sync_ref ≠ (i : Int))
    (hrange : ¬ ((R.length : Int) ≤ self.input_sync_ref ∨ self.input_sync_ref < -1))
    (hflags : ¬ (cfg.copy_ts ∧ ¬ cfg.start_at_zero))
    (href : R[self.input_sync_ref.toNat]? = some ref) :
    (∀ a b, self.start_time_realtime = some a → ref.start_time_realtime = some b →
      chooseStart self ref = some (a, b)) ∧
    ((self.start_time_realtime = none ∨ ref.start_time_realtime = none) →
      ∀ a b, self.start_time_effective = some a → ref.start_time_effective = some b →
        chooseStart self ref = some (a, b)) ∧
    ((self.start_time_realtime = none ∨ ref.start_time_realtime = none) →
      (self.start_time_effective = none ∨ ref.start_time_effective = none) →
      chooseStart self ref = none) ∧
    (chooseStart self ref = none → syncStep cfg R i = ⟨R, true⟩) := by
  refine ⟨?_, ?_, ?_, ?_⟩
  · intro a b ha hb
    simp [chooseStart, ha, hb]
  · intro hrt a b ha hb
    cases hsr : self.start_time_realtime <;> cases hrr : ref.start_time_realtime <;>
      simp_all [chooseStart]
  · intro hrt heff
    cases hsr : self.start_time_realtime <;> cases hrr : ref.start_time_realtime <;>
      cases hse : self.start_time_effective <;> cases hre : ref.start_time_effective <;>
      simp_all [chooseStart]
  · intro hns
    exact (syncStep_skip_cases cfg R i self hself
      (Or.inr (Or.inr ⟨hrange, hflags, ref, href, Or.inr hns⟩))).1

/-- Witness for C9 on `exRegNoStart`: neither wall-clock nor effective start
times are known for the pair, so no comparable pair exists and the step is a
non-fatal no-op. -/
theorem c9_start_time_preference_witness :
    chooseStart (⟨none, false, [], none, none, none, 4, 0, 0⟩ : InputFile)
        (⟨none, false, [], none, none, none, 3, 0, -1⟩ : InputFile) = none ∧
    syncStep cfgOff exRegNoStart 1 = ⟨exRegNoStart, true⟩ := by
  have h := c9_start_time_preference cfgOff exRegNoStart 1
    ⟨none, false, [], none, none, none, 4, 0, 0⟩
    ⟨none, false, [], none, none, none, 3, 0, -1⟩
    (by decide) (by decide) (by decide) (by decide) (by decide)
  exact ⟨h.2.2.1 (Or.inl rfl) (Or.inl rfl),
    h.2.2.2 (h.2.2.1 (Or.inl rfl) (Or.inl rfl))⟩

/-- Any out-of-range reference is automatically "active": it is neither `-1`
nor equal to the own index. -/
theorem activeRefB_of_oorB {R : List InputFile} {i : Nat}
    (h : oorB R i = true) : activeRefB R i = true := by
  unfold oorB at h
  unfold activeRefB
  cases hRi : R[i]? with
  | none => rw [hRi] at h; simp at h
  | some f =>
    have hlen : i < R.length := (List.getElem?_eq_some.mp hRi).1
    rw [hRi, decide_eq_true_eq] at h
    rw [decide_eq_true_eq]
    constructor
    · intro he
      rw [he] at h
      omega
    · intro he
      rw [he] at h
      omega

/-- C6: the synchronizer entry point returns `AVERROR(EINVAL)` iff some
input has an out-of-range sync reference or copy-ts is set without
start-at-zero while some input has an active non-self reference; and once a
fatal index exists, every entry at or beyond it is left untouched (the loop
stops at the first fatal index, and earlier steps write only their own,
strictly smaller, indices).  In every other configuration the entry point
returns success. -/
theorem c6_fatal_error_semantics (cfg : Config) (R : List InputFile) :
    ((apply_sync_offsets cfg R).ok = false ↔
      ((∃ i, i < R.length ∧ oorB R i = true) ∨
        (cfg.copy_ts = true ∧ cfg.start_at_zero = false ∧
          ∃ i, i < R.length ∧ activeRefB R i = true))) ∧
    (∀ j k : Nat, k ≤ j →
      (oorB R k = true ∨
        (activeRefB R k = true ∧ cfg.copy_ts = true ∧ cfg.start_at_zero = false)) →
      ((apply_sync_offsets cfg R).registry)[j]? = R[j]?) := by
  constructor
  · have hok := @applySyncLoop_ok cfg R (List.range R.length) R rfl
    unfold apply_sync_offsets
    rw [hok, Bool.eq_false_iff, Ne, List.all_eq_true]
    push_neg
    simp only [ne_eq, decide_eq_true_eq, not_not, List.mem_range]
    constructor
    · rintro ⟨i, hi, hfat⟩
      obtain ⟨hact, hor⟩ := (stepClass_fatal_iff cfg R i).mp hfat
      rcases hor with h | h
      · exact Or.inl ⟨i, hi, h⟩
      · exact Or.inr ⟨h.1, h.2, i, hi, hact⟩
    · rintro (⟨i, hi, hoor⟩ | ⟨hc, hz, i, hi, hact⟩)
      · exact ⟨i, hi, (stepClass_fatal_iff cfg R i).mpr
          ⟨activeRefB_of_oorB hoor, Or.inl hoor⟩⟩
      · exact ⟨i, hi, (stepClass_fatal_iff cfg R i).mpr ⟨hact, Or.inr ⟨hc, hz⟩⟩⟩
  · intro j k hkj hfatal
    have hfatal2 : activeRefB R k = true ∧
        (oorB R k = true ∨ (cfg.copy_ts = true ∧ cfg.start_at_zero = false)) := by
      rcases hfatal with h | h
      · exact ⟨activeRefB_of_oorB h, Or.inl h⟩
      · exact ⟨h.1, Or.inr ⟨h.2.1, h.2.2⟩⟩
    have hkfat : stepClass cfg R k = .fatalClass :=
      (stepClass_fatal_iff cfg R k).mpr hfatal2
    have hk : k < R.length := lt_length_of_activeRefB hfatal2.1
    unfold apply_sync_offsets
    exact applySyncLoop_stopframe (List.range R.length) R j rfl
      (List.pairwise_lt_range _) ⟨k, List.mem_range.mpr hk, hkfat, hkj⟩

/-- Witness for C6 on `exRegBad`: input 2's reference 99 is out of range, so
the entry point fails with the distinguished error, and entry 2 (at the
fatal index) is untouched. -/
theorem c6_fatal_error_semantics_witness :
    (apply_sync_offsets cfgOff exRegBad).ok = false ∧
    ((apply_sync_offsets cfgOff exRegBad).registry)[2]? = exRegBad[2]? := by
  have h := c6_fatal_error_semantics cfgOff exRegBad
  exact ⟨h.1.mpr (Or.inl ⟨2, by decide, by decide⟩),
    h.2 2 2 (le_refl 2) (Or.inl (by decide))⟩

/-- C3 (amended): a sync reference index `≥` the number of inputs always
makes the synchronizer return the fatal invalid-argument error — but inputs
processed before the offending index may already have had their `ts_offset`
adjusted; the mutation is not rolled back. -/
theorem c3_out_of_range_fatal (cfg : Config) (R : List InputFile) (j : Nat)
    (self : InputFile) (hj : R[j]? = some self)
    (hoor : (R.length : Int) ≤ self.input_sync_ref) :
    (apply_sync_offsets cfg R).ok = false := by
  have hjlen : j < R.length := (List.getElem?_eq_some.mp hj).1
  have hact : activeRefB R j = true := by
    unfold activeRefB
    rw [hj, decide_eq_true_eq]
    constructor
    · intro h
      rw [h] at hoor
      omega
    · intro h
      rw [h] at hoor
      omega
  have hoorB : oorB R j = true := by
    unfold oorB
    rw [hj, decide_eq_true_eq]
    exact Or.inl hoor
  have hok := @applySyncLoop_ok cfg R (List.range R.length) R rfl
  unfold apply_sync_offsets
  rw [hok, Bool.eq_false_iff]
  intro hall
  rw [List.all_eq_true] at hall
  have h2 := hall j (List.mem_range.mpr hjlen)
  rw [decide_eq_true_eq] at h2
  exact h2 ((stepClass_fatal_iff cfg R j).mpr ⟨hact, Or.inl hoorB⟩)

/-- Witness for C3 (amended) on `exRegBad`, whose input 2 references the
nonexistent input 99. -/
theorem c3_out_of_range_fatal_witness :
    (apply_sync_offsets cfgOff exRegBad).ok = false :=
  c3_out_of_range_fatal cfgOff exRegBad 2
    ⟨none, false, [], none, none, some 0, 0, 0, 99⟩ (by decide) (by decide)

/-- C3 counterexample: on `exRegBad` the synchronizer does return the fatal
error, but input 0 — processed before the offending input 2 — has already
had its `ts_offset` adjusted from 0 to 200 000, so "zero mutation to every
input's timestampOffset" fails. -/
theorem c3_claim_counterexample :
    (apply_sync_offsets cfgOff exRegBad).ok = false ∧
    (apply_sync_offsets cfgOff exRegBad).registry.map InputFile.ts_offset =
      [200000, 0, 0] ∧
    exRegBad.map InputFile.ts_offset = [0, 0, 0] :=
  ⟨by decide, by decide, by decide⟩

/-- C10: two distinct inputs that mutually reference each other are each
treated as referencing a "resynced" (chained) input: both steps are skipped,
neither `ts_offset` changes, and — all references being in range and the
flag precondition holding — the synchronizer returns success. -/
theorem c10_mutual_references (cfg : Config) (R : List InputFile) (a b : Nat)
    (fa fb : InputFile) (hab : a ≠ b)
    (ha : R[a]? = some fa) (hb : R[b]? = some fb)
    (hfa : fa.input_sync_ref = (b : Int)) (hfb : fb.input_sync_ref = (a : Int))
    (hflags : ¬ (cfg.copy_ts ∧ ¬ cfg.start_at_zero))
    (hinrange : R.all (fun f => decide (f.input_sync_ref < (R.length : Int) ∧
      -1 ≤ f.input_sync_ref)) = true) :
    (apply_sync_offsets cfg R).ok = true ∧
    syncStep cfg R a = ⟨R, true⟩ ∧ syncStep cfg R b = ⟨R, true⟩ ∧
    ((apply_sync_offsets cfg R).registry)[a]? = R[a]? ∧
    ((apply_sync_offsets cfg R).registry)[b]? = R[b]? := by
  have hrange_f : ∀ {i : Nat} {f : InputFile}, R[i]? = some f →
      ¬ ((R.length : Int) ≤ f.input_sync_ref ∨ f.input_sync_ref < -1) := by
    intro i f hf
    have hmem : f ∈ R := by
      obtain ⟨hl, he⟩ := List.getElem?_eq_some.mp hf
      exact he ▸ R.getElem_mem hl
    have hprop := List.all_eq_true.mp hinrange f hmem
    rw [decide_eq_true_eq] at hprop
    push_neg
    exact ⟨by omega, by omega⟩
  have hchA : stepClass cfg R a = .skipClass := by
    refine stepClass_skip_of_chained ha ⟨by rw [hfa]; omega, by rw [hfa]; omega⟩
      (hrange_f ha) hflags ?_ ⟨by rw [hfb]; omega, by rw [hfb, hfa]; omega⟩
    rw [hfa, Int.toNat_natCast]
    exact hb
  have hchB : stepClass cfg R b = .skipClass := by
    refine stepClass_skip_of_chained hb ⟨by rw [hfb]; omega, by rw [hfb]; omega⟩
      (hrange_f hb) hflags ?_ ⟨by rw [hfa]; omega, by rw [hfa, hfb]; omega⟩
    rw [hfb, Int.toNat_natCast]
    exact ha
  have hnofatal : ∀ i ∈ List.range R.length,
      decide (stepClass cfg R i ≠ StepClass.fatalClass) = true := by
    intro i _
    rw [decide_eq_true_eq]
    intro hfat
    obtain ⟨hact, hor⟩ := (stepClass_fatal_iff cfg R i).mp hfat
    cases hRi : R[i]? with
    | none =>
      unfold activeRefB at hact
      rw [hRi] at hact
      simp at hact
    | some f =>
      rcases hor with h | h
      · unfold oorB at h
        rw [hRi, decide_eq_true_eq] at h
        exact hrange_f hRi h
      · exact hflags ⟨h.1, by simp [h.2]⟩
  have hok := @applySyncLoop_ok cfg R (List.range R.length) R rfl
  refine ⟨?_, syncStep_skipped hchA, syncStep_skipped hchB, ?_, ?_⟩
  · unfold apply_sync_offsets
    rw [hok]
    exact List.all_eq_true.mpr hnofatal
  · unfold apply_sync_offsets
    exact @applySyncLoop_frame_noadjust cfg R (List.range R.length) R a rfl
      (fun d hd => by rw [hchA] at hd; cases hd)
  · unfold apply_sync_offsets
    exact @applySyncLoop_frame_noadjust cfg R (List.range R.length) R b rfl
      (fun d hd => by rw [hchB] at hd; cases hd)

/-- Witness for C10 on `exRegMutual`: inputs 0 and 1 reference each other;
both steps are skipped, both `ts_offset`s survive, and the run succeeds. -/
theorem c10_mutual_references_witness :
    (apply_sync_offsets cfgOff exRegMutual).ok = true ∧
    syncStep cfgOff exRegMutual 0 = ⟨exRegMutual, true⟩ ∧
    syncStep cfgOff exRegMutual 1 = ⟨exRegMutual, true⟩ ∧
    ((apply_sync_offsets cfgOff exRegMutual).registry)[0]? = exRegMutual[0]? ∧
    ((apply_sync_offsets cfgOff exRegMutual).registry)[1]? = exRegMutual[1]? :=
  c10_mutual_references cfgOff exRegMutual 0 1
    ⟨none, false, [], none, none, some 100, 11, 0, 1⟩
    ⟨none, false, [], none, none, some 200, 22, 0, 0⟩
    (by decide) (by decide) (by decide) (by decide) (by decide) (by decide)
    (by decide)
